import Mathlib

/-!
Shallow embedding of the release-changelog-builder action (sources under
`src/`), together with theorems settling the specification claims.

The embedding follows the TypeScript sources:
* `src/submodules.ts` — submodule detection (`getSubmodules`, `getRepoInfo`);
* `src/main.ts` — the orchestrating `run`, in particular its in-place
  mutation of the configuration object across nested submodule runs;
* `src/releaseNotesBuilder.ts` — tag-range resolution and the empty-template
  fallback of `build`;
* `releaseNotes.ts` (an unnamed source file) — `pull`,
  `getMergedPullRequests`, `generateCommitPRs`.

Code of the repository that is not under `src/` (`commits.ts`, `transform.ts`,
`utils.ts`) is modelled from the spec where a claim needs it; each such
definition carries a doc comment starting with `Modelled from the spec:`.

Asynchronous network lookups are represented by passing their results in as
explicit inputs; a rejected promise is an `Except.error`.
-/

/-! ## Data model: submodules (`src/submodules.ts`) -/

/-- `SubmoduleInfo` of `src/submodules.ts`: one entry per detected submodule. -/
structure SubmoduleInfo where
  path : String
  baseRef : String
  headRef : String
  owner : String
  repo : String
deriving DecidableEq, Repr

/-- `RepoInfo` of `src/submodules.ts`. -/
structure RepoInfo where
  baseUrl : String
  owner : String
  repo : String
deriving DecidableEq, Repr

/-- The result of one `repos.getContent` lookup, as discriminated by
`getSubmodules`: either a directory listing (an array, `dir`) or a single
entry (`file`) exposing an optional `submodule_git_url` and a `sha`.
The combined JavaScript checks `x in y` and `y.x !== undefined` are the
`Option` being `some`. -/
inductive ContentEntry where
  | dir : ContentEntry
  | file (submodule_git_url : Option String) (sha : String) : ContentEntry
deriving DecidableEq, Repr

deriving instance DecidableEq for Except

/-- The two content lookups performed for one configured submodule path:
`headResult` at `toTag` (fetched first, outside any try/catch) and
`baseResult` at `fromTag` (fetched inside a try/catch). `Except.error`
is a rejected lookup promise. -/
structure PathLookup where
  path : String
  headResult : Except Unit ContentEntry
  baseResult : Except Unit ContentEntry
deriving DecidableEq, Repr

/-! ## `getRepoInfo` (`src/submodules.ts`, lines 85-96)

The source matches the URL against the regular expression

  `^(?<base>https:\/\/github.com\/|git@github.com:)(?<owner>.+)\/(?<repo>.+)?$`

and then strips `/.git$/` from the repo group. The dots in `github.com` and
in `.git` are unescaped, so they match any character other than a line
terminator; the embedding reproduces exactly that. The greedy `(?<owner>.+)`
makes `owner` everything up to the last `/` of the remainder, and the
optional `(?<repo>.+)?` leaves the repo group undefined when the URL ends in
`/`, in which case `match.groups.repo.replace` throws at runtime
(`Except.error` below). -/

/-- A JavaScript-regex line terminator, which the unescaped `.` does not match. -/
def isLineTerm (c : Char) : Bool :=
  c == '\n' || c == '\r' || c == '\u2028' || c == '\u2029'

/-- Match a fixed-length pattern where `none` is the unescaped-dot wildcard
(any character except a line terminator). -/
def matchWild : List (Option Char) → List Char → Bool
  | [], [] => true
  | none :: ps, c :: cs => !isLineTerm c && matchWild ps cs
  | some p :: ps, c :: cs => p == c && matchWild ps cs
  | _, _ => false

/-- The `github.com` part of the pattern: dot unescaped, hence a wildcard. -/
def githubHostPat : List (Option Char) :=
  [some 'g', some 'i', some 't', some 'h', some 'u', some 'b', none,
   some 'c', some 'o', some 'm']

/-- The literal `https://` prefix of the first alternative. -/
def httpsLit : List Char := ['h', 't', 't', 'p', 's', ':', '/', '/']

/-- The literal `git@` prefix of the second alternative. -/
def gitAtLit : List Char := ['g', 'i', 't', '@']

/-- Consume the `base` group: `https://github.com/` or `git@github.com:`
(dots wildcarded). Returns the consumed characters and the remainder. -/
def stripBase (cs : List Char) : Option (List Char × List Char) :=
  if cs.take 8 == httpsLit && matchWild githubHostPat ((cs.drop 8).take 10)
      && (cs.drop 18).take 1 == ['/'] then
    some (cs.take 19, cs.drop 19)
  else if cs.take 4 == gitAtLit && matchWild githubHostPat ((cs.drop 4).take 10)
      && (cs.drop 14).take 1 == [':'] then
    some (cs.take 15, cs.drop 15)
  else
    none

/-- Index of the last `/` in the list, if any. -/
def lastSlashIdx (cs : List Char) : Option Nat :=
  ((cs.enum.filter (fun p => p.2 == '/')).map (fun p => p.1)).getLast?

/-- Split the remainder into the greedy `owner` group (everything before the
last `/`, which must be non-empty) and the optional `repo` group (everything
after it, possibly empty = group undefined). `.+` cannot cross a line
terminator, so any line terminator in the remainder defeats the match. -/
def splitOwnerRepo (cs : List Char) : Option (List Char × List Char) :=
  if cs.any isLineTerm then none
  else
    match lastSlashIdx cs with
    | none => none
    | some k => if 1 ≤ k then some (cs.take k, cs.drop (k + 1)) else none

/-- A character removed by JavaScript `String.prototype.trim` (ECMAScript
WhiteSpace or LineTerminator; the common members suffice here). -/
def isJsWhitespace (c : Char) : Bool :=
  c == ' ' || c == '\t' || c == '\n' || c == '\r' || c == '\x0b' || c == '\x0c'
    || c == '\u00a0' || c == '\u2028' || c == '\u2029' || c == '\ufeff'

/-- JavaScript `.trim()`: drop leading and trailing whitespace. -/
def jsTrim (cs : List Char) : List Char :=
  ((cs.dropWhile isJsWhitespace).reverse.dropWhile isJsWhitespace).reverse

/-- `repo.replace(/.git$/, '')`: the unescaped dot makes this strip any
character followed by `git` at the end of the name. (At its call site the
stripped character can never be a line terminator, since the repo group was
matched by `.+`.) -/
def stripDotGit (cs : List Char) : List Char :=
  if 4 ≤ cs.length && cs.drop (cs.length - 3) == ['g', 'i', 't'] then
    cs.take (cs.length - 4)
  else cs

/-- `Submodules.getRepoInfo` of `src/submodules.ts`. `Except.error` is the
runtime `TypeError` thrown by `match.groups.repo.replace` when the optional
repo group is undefined (URL ending in `/`). -/
def getRepoInfo (submoduleUrl : String) : Except Unit (Option RepoInfo) :=
  match stripBase submoduleUrl.data with
  | none => .ok none
  | some (baseCs, rest) =>
    match splitOwnerRepo rest with
    | none => .ok none
    | some (ownerCs, repoCs) =>
      if repoCs.isEmpty then .error ()
      else
        .ok (some { baseUrl := String.mk (jsTrim baseCs),
                    owner := String.mk ownerCs,
                    repo := String.mk (jsTrim (stripDotGit repoCs)) })

/-! ## `getSubmodules` (`src/submodules.ts`, lines 24-83) -/

/-- The `failOrError` report emitted when the shape checks on the two content
entries fail. Mirrors the source message text. -/
def missingPathMsg (path : String) : String :=
  "Missing or couldn\x27t resolve submodule path \x27" ++ path ++ "\x27."

/-- The `failOrError` report emitted when the head URL is not a GitHub
repository; the source interpolates the base entry URL into the message. -/
def invalidRepoMsg (url : String) : String :=
  "Submodule \x27" ++ url ++ "\x27 is not a valid GitHub repository."

/-- One iteration of the `getSubmodules` loop for a single path. Returns the
pushed `SubmoduleInfo` (if any) and the `failOrError` report (if any);
`Except.error` is an uncaught exception aborting the whole call (a rejected
head lookup, or the runtime error inside `getRepoInfo`). A rejected base
lookup is caught: the head entry is substituted and only a `core.warning`
(not a `failOrError` report) is issued. -/
def processPath (l : PathLookup) : Except Unit (Option SubmoduleInfo × Option String) :=
  match l.headResult with
  | .error _ => .error ()
  | .ok head =>
    let base := match l.baseResult with
      | .ok b => b
      | .error _ => head
    match base, head with
    | .file (some bu) bsha, .file (some hu) hsha =>
      match getRepoInfo hu with
      | .error _ => .error ()
      | .ok none => .ok (none, some (invalidRepoMsg bu))
      | .ok (some ri) =>
        .ok (some { path := l.path, baseRef := bsha, headRef := hsha,
                    owner := ri.owner, repo := ri.repo }, none)
    | _, _ => .ok (none, some (missingPathMsg l.path))

/-- `Submodules.getSubmodules` of `src/submodules.ts`, with each path's two
content lookups supplied as inputs. Returns the collected `SubmoduleInfo`
entries together with the list of `failOrError` reports (the `failOnError`
switch only selects the severity of a report, never whether the loop
continues, so it does not appear here). -/
def getSubmodules : List PathLookup → Except Unit (List SubmoduleInfo × List String)
  | [] => .ok ([], [])
  | l :: rest =>
    match processPath l with
    | .error e => .error e
    | .ok (info?, report?) =>
      match getSubmodules rest with
      | .error e => .error e
      | .ok (infos, reports) => .ok (info?.toList ++ infos, report?.toList ++ reports)

/-! ## Configuration (`configuration.ts`)

Only the fields the verified claims touch are embedded; the remaining
configuration fields do not influence the modelled operations. -/

/-- The configuration record, restricted to the fields used by the embedded
operations (`configuration.ts`). -/
structure Configuration where
  max_back_track_time_days : Nat
  exclude_merge_branches : List String
  base_branches : List String
  template : String
  empty_template : String
  submodule_paths : List String
  submodule_template : String
deriving DecidableEq, Repr

/-- `configuration.max_back_track_time_days || DefaultConfiguration...`:
the JavaScript `||` falls back to the default (365) when the configured
number is 0 (falsy). -/
def effMaxBackTrack (cfg : Configuration) : Nat :=
  if cfg.max_back_track_time_days = 0 then 365 else cfg.max_back_track_time_days

/-- `configuration.empty_template || DefaultConfiguration.empty_template`:
falls back to the default when the configured template is the empty string. -/
def effEmptyTemplate (cfg : Configuration) : String :=
  if cfg.empty_template = "" then "- no changes" else cfg.empty_template

/-! ## The orchestrator `run` (`src/main.ts`, lines 67-98)

After the top-level build, `run` assigns `configuration.submodule_paths = []`
and, inside the per-submodule loop, `configuration.template =
configuration.submodule_template`, mutating the shared configuration object
in place. `runConfigEffect` is the net effect of `run` on that object. -/

/-- The state of the shared configuration object after `run` finishes, given
the submodule list returned by `getSubmodules`. -/
def runConfigEffect (cfg : Configuration) (submodules : List SubmoduleInfo) : Configuration :=
  let cfg1 := { cfg with submodule_paths := [] }
  submodules.foldl (fun c _ => { c with template := c.submodule_template }) cfg1

/-! ## Tag-range resolution (`src/releaseNotesBuilder.ts`, lines 43-72) -/

/-- A resolved tag: name and commit (shape used by `tags.ts` consumers). -/
structure TagInfo where
  name : String
  commit : String
deriving DecidableEq, Repr

/-- `TagResult`: the pair of resolved tags. The source fields are `from` and
`to`; `from` is a reserved word in Lean, hence `from_` and `to_`. -/
structure TagResult where
  from_ : Option TagInfo
  to_ : Option TagInfo
deriving DecidableEq, Repr

/-- The regex `/^[a-f0-9]{40}$/` used by `build` to recognize plain SHA-1
hashes. -/
def isSha1 (s : String) : Bool :=
  s.length == 40 && s.data.all (fun c => ('a' ≤ c && c ≤ 'f') || ('0' ≤ c && c ≤ '9'))

/-- The tag-resolution step of `ReleaseNotesBuilder.build`: when both inputs
are plain SHA-1 hashes the range is built directly from them; otherwise the
result of `tagsApi.retrieveRange` (supplied here as `apiRange`, since
`tags.ts` performs network queries) is used. The second component records
whether the tag-listing capability was consulted. -/
def resolveTagRange (fromTag toTag : Option String) (apiRange : TagResult) :
    TagResult × Bool :=
  match fromTag, toTag with
  | some f, some t =>
    if isSha1 f && isSha1 t then
      ({ from_ := some { name := f, commit := f },
         to_ := some { name := t, commit := t } }, false)
    else (apiRange, true)
  | _, _ => (apiRange, true)

/-! ## Commits and pull requests (`releaseNotes.ts`) -/

/-- Modelled from the spec: `CommitInfo` is produced by `commits.ts`, which
is not under `src/`; the spec data model lists sha, author, date, one-line
summary and full message (parent shas are unused here). Dates are integers
(a point on the time axis, as compared by the moment library). -/
structure CommitInfo where
  sha : String
  author : String
  date : Int
  summary : String
  message : String
deriving DecidableEq, Repr

/-- `PullRequestInfo` as constructed and consumed by `releaseNotes.ts`.
Labels are a set in the source; a list of strings suffices for the embedded
operations (none of them inspect labels). -/
structure PullRequestInfo where
  number : Nat
  title : String
  htmlURL : String
  baseBranch : String
  createdAt : Int
  mergedAt : Int
  mergeCommitSha : String
  author : String
  repoName : String
  labels : List String
  milestone : String
  body : String
  assignees : List String
  requestedReviewers : List String
  approvedReviewers : List String
  status : String
deriving DecidableEq, Repr

/-- Modelled from the spec: `filterCommits` of `commits.ts` is not under
`src/`. Per the spec, it excludes commits whose one-line summary matches the
merge-from pattern of any configured excluded branch (the end-to-end example
excludes a commit summarized `Merge branch` quote release quote when
`exclude_merge_branches` contains `release`). -/
def isMergeOfBranch (summary branch : String) : Bool :=
  (summary.splitOn ("Merge branch \x27" ++ branch ++ "\x27")).length != 1

/-- Modelled from the spec: the excluded-merge-branch filter of `commits.ts`.
Keeps the commits whose summary matches no excluded branch. -/
def filterCommits (commits : List CommitInfo) (excludeMergeBranches : List String) :
    List CommitInfo :=
  commits.filter (fun c => !(excludeMergeBranches.any (fun b => isMergeOfBranch c.summary b)))

/-! ## Standard mode: `ReleaseNotes.getMergedPullRequests`
(`releaseNotes.ts`, lines 83-198), staged as in the source. -/

/-- `fromDate` before clamping: the date of `commits[0]`. -/
def naturalFromDate (commits : List CommitInfo) : Int :=
  ((commits.head?).map (fun c => c.date)).getD 0

/-- `toDate`: the date of `commits[commits.length - 1]`. -/
def toDateOf (commits : List CommitInfo) : Int :=
  ((commits.getLast?).map (fun c => c.date)).getD 0

/-- The clamped `fromDate`: `maxFromDate = toDate.clone().subtract(maxDays,
days)`; if `maxFromDate.isAfter(fromDate)` then `fromDate = maxFromDate`.
`maxDays` is measured in the same day unit as the dates. -/
def clampedFromDate (commits : List CommitInfo) (maxDays : Int) : Int :=
  let fromDate := naturalFromDate commits
  let maxFromDate := toDateOf commits - maxDays
  if fromDate < maxFromDate then maxFromDate else fromDate

/-- The PR-search window `[fromDate, toDate]` derived by
`getMergedPullRequests` from a non-empty commit list and the configuration. -/
def prSearchWindow (commits : List CommitInfo) (cfg : Configuration) : Int × Int :=
  (clampedFromDate commits (Int.ofNat (effMaxBackTrack cfg)), toDateOf commits)

/-- `releaseCommitHashes`: the shas of the commits surviving the
excluded-merge-branch filter. -/
def releaseCommitHashes (commits : List CommitInfo) (excl : List String) : List String :=
  (filterCommits commits excl).map (fun c => c.sha)

/-- `mergedPullRequests`: the retrieved PRs whose `mergeCommitSha` is among
the release commit hashes. -/
def mergedPullRequests (prs : List PullRequestInfo) (hashes : List String) :
    List PullRequestInfo :=
  prs.filter (fun pr => hashes.contains pr.mergeCommitSha)

/-- `allPullRequests`: when `includeOpen` is set, the open PRs are
concatenated to the merged ones with no commit-membership test. -/
def allPullRequests (merged openPrs : List PullRequestInfo) (includeOpen : Bool) :
    List PullRequestInfo :=
  if includeOpen then merged ++ openPrs else merged

/-- `finalPrs`: the base-branch filter. The regex matching of configured
base-branch patterns happens in the hosting runtime; it enters the embedding
as the `matchFn` predicate (pattern, branch). When no base branches are
configured every PR passes. -/
def finalPrs (all : List PullRequestInfo) (baseBranches : List String)
    (matchFn : String → String → Bool) : List PullRequestInfo :=
  all.filter (fun pr =>
    if baseBranches.isEmpty then true
    else baseBranches.any (fun pat => matchFn pat pr.baseBranch))

/-- `ReleaseNotes.getMergedPullRequests`, composed from its stages. The PR
lists retrieved from the hosting API between the window dates (`prs`) and the
open PRs (`openPrs`) are inputs; the reviewer augmentation only mutates
reviewer lists and is not modelled. An empty commit range returns `[]`
before any PR is fetched. -/
def getMergedPullRequests (commits : List CommitInfo)
    (prs openPrs : List PullRequestInfo) (cfg : Configuration)
    (includeOpen : Bool) (matchFn : String → String → Bool) : List PullRequestInfo :=
  if commits.isEmpty then []
  else
    finalPrs
      (allPullRequests
        (mergedPullRequests prs (releaseCommitHashes commits cfg.exclude_merge_branches))
        openPrs includeOpen)
      cfg.base_branches matchFn

/-! ## Commit mode: `ReleaseNotes.generateCommitPRs`
(`releaseNotes.ts`, lines 200-238) -/

/-- The synthetic `PullRequestInfo` built from one retained commit. The
source writes `commit.author || quote quote` and `commit.message || ...`,
which on strings is the identity (the guard only matters for an absent
value, and the spec data model makes both attributes present). -/
def commitToPR (commit : CommitInfo) : PullRequestInfo :=
  { number := 0
    title := commit.summary
    htmlURL := ""
    baseBranch := ""
    createdAt := commit.date
    mergedAt := commit.date
    mergeCommitSha := commit.sha
    author := commit.author
    repoName := ""
    labels := []
    milestone := ""
    body := commit.message
    assignees := []
    requestedReviewers := []
    approvedReviewers := []
    status := "merged" }

/-- `ReleaseNotes.generateCommitPRs`: every commit surviving the
excluded-merge-branch filter is mapped to its synthetic PR. -/
def generateCommitPRs (commits : List CommitInfo) (excl : List String) :
    List PullRequestInfo :=
  if commits.isEmpty then []
  else (filterCommits commits excl).map commitToPR

/-! ## `pull` and the empty-template fallback
(`releaseNotes.ts` lines 25-58; `src/releaseNotesBuilder.ts` lines 111-118) -/

/-- The run-level values substituted into templates (owner, repo and the two
resolved tags, per the produced-interface section of the spec). -/
structure RunOptions where
  owner : String
  repo : String
  fromTag : String
  toTag : String
deriving DecidableEq, Repr

/-- Modelled from the spec: `fillAdditionalPlaceholders` of `transform.ts`
is not under `src/`; it resolves the run-level placeholders in a template. -/
def fillAdditionalPlaceholders (template : String) (opts : RunOptions) : String :=
  (((template.replace "$\x7b\x7bOWNER\x7d\x7d" opts.owner).replace
      "$\x7b\x7bREPO\x7d\x7d" opts.repo).replace
    "$\x7b\x7bFROM_TAG\x7d\x7d" opts.fromTag).replace
  "$\x7b\x7bTO_TAG\x7d\x7d" opts.toTag

/-- `ReleaseNotes.pull`: a `null` result (here `none`) when the PR list is
empty, otherwise the changelog built from it (`buildChangelog` of
`transform.ts` is outside `src/`; its output enters as `changelog`). -/
def pullResult (prs : List PullRequestInfo) (changelog : String) : Option String :=
  if prs.isEmpty then none else some changelog

/-- The tail of `ReleaseNotesBuilder.build`: `(await releaseNotes.pull()) ||
fillAdditionalPlaceholders(empty_template, options)`. The JavaScript `||`
also replaces an empty-string changelog by the rendered empty template. -/
def buildOutput (prs : List PullRequestInfo) (changelog : String)
    (cfg : Configuration) (opts : RunOptions) : String :=
  match pullResult prs changelog with
  | none => fillAdditionalPlaceholders (effEmptyTemplate cfg) opts
  | some s => if s = "" then fillAdditionalPlaceholders (effEmptyTemplate cfg) opts else s

/-! ## Claims -/

/-- C1, counterexample: `getSubmodules` never compares the two reported
submodule URLs. With the base lookup reporting `oldorg/oldrepo` and the head
lookup reporting `neworg/newrepo` — two different URLs — an entry is still
produced (with the two pinned shas) and no failure is reported, contradicting
the claim that divergent URLs yield no entry plus a fail-on-error report.
(`PathLookup` fields: path, head lookup, base lookup; `SubmoduleInfo` fields:
path, baseRef, headRef, owner, repo.) -/
theorem c1_url_divergence_counterexample :
    getSubmodules
        [⟨"libs/widget", .ok (.file (some "https://github.com/neworg/newrepo") "1111"),
          .ok (.file (some "https://github.com/oldorg/oldrepo") "2222")⟩]
      = .ok ([⟨"libs/widget", "2222", "1111", "neworg", "newrepo"⟩], [])
    ∧ ("https://github.com/oldorg/oldrepo" : String) ≠ "https://github.com/neworg/newrepo" := by
  exact ⟨by decide, by decide⟩

/-- C1, amended: for every configured submodule path, an entry (with
`baseRef`/`headRef` the two pinned shas) is produced whenever both lookups
yield submodule file entries with defined URLs and the head URL parses as a
GitHub repository — the two URLs are never compared, so divergent URLs also
produce an entry and no failure is reported; when the shape checks fail
(for example the head lookup yields a directory listing) no entry is produced
and the failure is reported via the fail-on-error policy. -/
theorem c1_entry_production (p bu hu bsha hsha : String) (ri : RepoInfo)
    (h : getRepoInfo hu = .ok (some ri)) :
    getSubmodules [⟨p, .ok (.file (some hu) hsha), .ok (.file (some bu) bsha)⟩]
      = .ok ([⟨p, bsha, hsha, ri.owner, ri.repo⟩], [])
    ∧ getSubmodules [⟨p, .ok .dir, .ok (.file (some bu) bsha)⟩]
      = .ok ([], [missingPathMsg p]) := by
  constructor
  · simp [getSubmodules, processPath, h]
  · simp [getSubmodules, processPath]

/-- C1, witness for the amended theorem at concrete divergent URLs. -/
theorem c1_entry_production_witness :
    getRepoInfo "https://github.com/neworg/newrepo"
      = .ok (some ⟨"https://github.com/", "neworg", "newrepo"⟩)
    ∧ getSubmodules
        [⟨"libs/widget", .ok (.file (some "https://github.com/neworg/newrepo") "1111"),
          .ok (.file (some "https://github.com/oldorg/oldrepo") "2222")⟩]
      = .ok ([⟨"libs/widget", "2222", "1111", "neworg", "newrepo"⟩], [])
    ∧ getSubmodules
        [⟨"libs/widget", .ok .dir, .ok (.file (some "https://github.com/oldorg/oldrepo") "2222")⟩]
      = .ok ([], [missingPathMsg "libs/widget"]) := by
  have h := c1_entry_production "libs/widget" "https://github.com/oldorg/oldrepo"
    "https://github.com/neworg/newrepo" "2222" "1111"
    ⟨"https://github.com/", "neworg", "newrepo"⟩ (by decide)
  exact ⟨by decide, h.1, h.2⟩

/-- Helper: the per-submodule loop of `run` only ever rewrites `template`
from the unchanged `submodule_template`, so folding it once or many times is
the same single update. -/
theorem runConfigEffect_foldl (subs : List SubmoduleInfo) (c : Configuration) :
    subs.foldl (fun c _ => { c with template := c.submodule_template }) c
      = if subs.isEmpty then c else { c with template := c.submodule_template } := by
  induction subs generalizing c with
  | nil => simp
  | cons s rest ih =>
    simp only [List.foldl_cons, ih]
    cases rest <;> simp

/-- Helper: the net effect of `run` on the shared configuration object. -/
theorem runConfigEffect_eq (cfg : Configuration) (subs : List SubmoduleInfo) :
    runConfigEffect cfg subs
      = { cfg with submodule_paths := [],
                   template := if subs.isEmpty then cfg.template
                               else cfg.submodule_template } := by
  unfold runConfigEffect
  rw [runConfigEffect_foldl]
  cases subs <;> simp

/-- C2, counterexample: `run` mutates the configuration in place — with a
configuration whose `submodule_paths` is `["backend/core"]` and no detected
submodules, the configuration after the run differs from the configuration
before it (`submodule_paths` has been reset to `[]`). Configuration fields:
max_back_track_time_days, exclude_merge_branches, base_branches, template,
empty_template, submodule_paths, submodule_template. -/
theorem c2_config_mutation_counterexample :
    runConfigEffect ⟨365, [], [], "tpl", "- no changes", ["backend/core"], "subtpl"⟩ []
      ≠ ⟨365, [], [], "tpl", "- no changes", ["backend/core"], "subtpl"⟩ := by
  decide

/-- C2, amended: after the top-level build and all submodule builds, the
shared configuration is mutated exactly as follows: `submodule_paths` is
reset to `[]`, `template` is overwritten with `submodule_template` when at
least one submodule was processed, and every other field keeps its value. -/
theorem c2_config_mutation (cfg : Configuration) (subs : List SubmoduleInfo) :
    (runConfigEffect cfg subs).submodule_paths = []
    ∧ (runConfigEffect cfg subs).template
        = (if subs.isEmpty then cfg.template else cfg.submodule_template)
    ∧ (runConfigEffect cfg subs).max_back_track_time_days = cfg.max_back_track_time_days
    ∧ (runConfigEffect cfg subs).exclude_merge_branches = cfg.exclude_merge_branches
    ∧ (runConfigEffect cfg subs).base_branches = cfg.base_branches
    ∧ (runConfigEffect cfg subs).empty_template = cfg.empty_template
    ∧ (runConfigEffect cfg subs).submodule_template = cfg.submodule_template := by
  rw [runConfigEffect_eq]
  refine ⟨rfl, rfl, rfl, rfl, rfl, rfl, rfl⟩

/-- C3: when both tag inputs are full-length lowercase hexadecimal commit
identifiers, the tag-resolution step of `build` returns the range built
directly from them — name and commit both equal to the input — for every
possible tag-listing result `api`, and records that the tag-listing
capability was not queried (second component `false`). -/
theorem c3_sha_inputs_skip_resolution (f t : String) (api : TagResult)
    (hf : isSha1 f = true) (ht : isSha1 t = true) :
    resolveTagRange (some f) (some t) api
      = ({ from_ := some ⟨f, f⟩, to_ := some ⟨t, t⟩ }, false) := by
  simp [resolveTagRange, hf, ht]

/-- C3, witness at two concrete 40-character hex shas. -/
theorem c3_sha_inputs_skip_resolution_witness :
    isSha1 "0123456789abcdef0123456789abcdef01234567" = true
    ∧ isSha1 "aaaaaaaaaaaaaaaaaaaaaaaaaaaaaaaaaaaaaaaa" = true
    ∧ resolveTagRange (some "0123456789abcdef0123456789abcdef01234567")
        (some "aaaaaaaaaaaaaaaaaaaaaaaaaaaaaaaaaaaaaaaa") ⟨none, none⟩
      = ({ from_ := some ⟨"0123456789abcdef0123456789abcdef01234567",
                          "0123456789abcdef0123456789abcdef01234567"⟩,
           to_ := some ⟨"aaaaaaaaaaaaaaaaaaaaaaaaaaaaaaaaaaaaaaaa",
                        "aaaaaaaaaaaaaaaaaaaaaaaaaaaaaaaaaaaaaaaa"⟩ }, false) :=
  ⟨by decide, by decide,
    c3_sha_inputs_skip_resolution _ _ _ (by decide) (by decide)⟩

/-- C4: in standard mode a merged pull request survives the correlation step
exactly when its `mergeCommitSha` is among the release commit hashes (the
shas of the commits surviving the excluded-merge-branch filter); with
`includeOpen` set, the open pull requests are appended wholesale, with no
commit-membership test; and when no base branches are configured the
subsequent base-branch filter keeps everything unchanged. -/
theorem c4_standard_correlation (commits : List CommitInfo) (excl : List String)
    (prs openPrs : List PullRequestInfo) (pr : PullRequestInfo)
    (matchFn : String → String → Bool) :
    (pr ∈ mergedPullRequests prs (releaseCommitHashes commits excl)
      ↔ pr ∈ prs ∧ (releaseCommitHashes commits excl).contains pr.mergeCommitSha = true)
    ∧ allPullRequests (mergedPullRequests prs (releaseCommitHashes commits excl))
        openPrs true
      = mergedPullRequests prs (releaseCommitHashes commits excl) ++ openPrs
    ∧ finalPrs (allPullRequests (mergedPullRequests prs (releaseCommitHashes commits excl))
        openPrs true) [] matchFn
      = allPullRequests (mergedPullRequests prs (releaseCommitHashes commits excl))
          openPrs true := by
  refine ⟨?_, ?_, ?_⟩
  · simp [mergedPullRequests, List.mem_filter]
  · simp [allPullRequests]
  · simp [finalPrs]

/-- C5: in commit mode every commit surviving the excluded-merge-branch
filter is mapped to exactly one synthetic pull-request record — number 0,
title the one-line summary, body the full message, author the commit author,
mergeCommitSha the commit sha, status merged, and empty label, assignee and
reviewer sets — and nothing else is produced. -/
theorem c5_commit_mode_synthesis (commits : List CommitInfo) (excl : List String)
    (c : CommitInfo) :
    generateCommitPRs commits excl = (filterCommits commits excl).map commitToPR
    ∧ (commitToPR c).number = 0
    ∧ (commitToPR c).title = c.summary
    ∧ (commitToPR c).body = c.message
    ∧ (commitToPR c).author = c.author
    ∧ (commitToPR c).mergeCommitSha = c.sha
    ∧ (commitToPR c).status = "merged"
    ∧ (commitToPR c).labels = []
    ∧ (commitToPR c).assignees = []
    ∧ (commitToPR c).requestedReviewers = []
    ∧ (commitToPR c).approvedReviewers = [] := by
  refine ⟨?_, rfl, rfl, rfl, rfl, rfl, rfl, rfl, rfl, rfl, rfl⟩
  cases commits <;> simp [generateCommitPRs, filterCommits]

/-- C6: with the excluded-merge-branch filter disabled (empty exclusion
list) the retained commit-sha set of standard mode (`releaseCommitHashes`)
coincides with the merge-commit shas of the synthetic records of commit mode
(`generateCommitPRs`), for every commit list of the range. -/
theorem c6_mode_agreement (commits : List CommitInfo) :
    releaseCommitHashes commits []
      = (generateCommitPRs commits []).map (fun pr => pr.mergeCommitSha) := by
  cases commits with
  | nil => simp [releaseCommitHashes, generateCommitPRs, filterCommits]
  | cons c cs =>
    simp [releaseCommitHashes, generateCommitPRs, filterCommits, commitToPR]

/-- C7: an empty commit range makes `getMergedPullRequests` return the empty
pull-request list before any PR is fetched, and an empty final pull-request
list makes `pull` return null, upon which `build` returns the rendered empty
template instead of failing (the whole pipeline is a total function here:
no abort path exists for this case). -/
theorem c7_empty_range_short_circuit (prs openPrs finalList : List PullRequestInfo)
    (cfg : Configuration) (includeOpen : Bool) (matchFn : String → String → Bool)
    (changelog : String) (opts : RunOptions) (hfinal : finalList = []) :
    getMergedPullRequests [] prs openPrs cfg includeOpen matchFn = []
    ∧ pullResult finalList changelog = none
    ∧ buildOutput finalList changelog cfg opts
        = fillAdditionalPlaceholders (effEmptyTemplate cfg) opts := by
  subst hfinal
  exact ⟨by simp [getMergedPullRequests], by simp [pullResult],
    by simp [buildOutput, pullResult]⟩

/-- C7, witness at a concrete empty range and concrete configuration. -/
theorem c7_empty_range_short_circuit_witness :
    ([] : List PullRequestInfo) = []
    ∧ (getMergedPullRequests [] [] [] ⟨365, [], [], "tpl", "- no changes", [], "sub"⟩
        true (fun _ _ => true) = []
      ∧ pullResult [] "log" = none
      ∧ buildOutput [] "log" ⟨365, [], [], "tpl", "- no changes", [], "sub"⟩
          ⟨"acme", "widgets", "v1.0.0", "v1.1.0"⟩
        = fillAdditionalPlaceholders
            (effEmptyTemplate ⟨365, [], [], "tpl", "- no changes", [], "sub"⟩)
            ⟨"acme", "widgets", "v1.0.0", "v1.1.0"⟩) :=
  ⟨rfl, c7_empty_range_short_circuit [] [] [] _ true (fun _ _ => true) "log" _ rfl⟩

/-- C8: for a non-empty commit list and a configured (non-zero)
`max_back_track_time_days`, the derived PR-search window moves `fromDate`
forward to `toDate` minus that many days exactly when the natural window
exceeds that span, never moves it backwards, and leaves `toDate` unchanged. -/
theorem c8_backtrack_clamp (commits : List CommitInfo) (cfg : Configuration)
    (hne : commits ≠ []) (hdays : cfg.max_back_track_time_days ≠ 0) :
    prSearchWindow commits cfg
      = (if (cfg.max_back_track_time_days : Int)
            < toDateOf commits - naturalFromDate commits
         then toDateOf commits - (cfg.max_back_track_time_days : Int)
         else naturalFromDate commits,
         toDateOf commits)
    ∧ naturalFromDate commits ≤ (prSearchWindow commits cfg).1
    ∧ (prSearchWindow commits cfg).2 = toDateOf commits := by
  have heff : effMaxBackTrack cfg = cfg.max_back_track_time_days := by
    unfold effMaxBackTrack
    simp [hdays]
  refine ⟨?_, ?_, rfl⟩
  · unfold prSearchWindow clampedFromDate
    rw [heff]
    have hiff : naturalFromDate commits
          < toDateOf commits - (cfg.max_back_track_time_days : Int)
        ↔ (cfg.max_back_track_time_days : Int)
          < toDateOf commits - naturalFromDate commits := by omega
    simp only [Int.ofNat_eq_coe, hiff]
  · unfold prSearchWindow clampedFromDate
    dsimp only
    split <;> omega

/-- C8, witness: two commits at dates 0 and 500 with a 100-day back-track
bound clamp the window to `[400, 500]`. -/
theorem c8_backtrack_clamp_witness :
    ([⟨"c1", "alice", 0, "first", "first"⟩,
      ⟨"c2", "bob", 500, "second", "second"⟩] : List CommitInfo) ≠ []
    ∧ (⟨100, [], [], "tpl", "", [], "sub"⟩ : Configuration).max_back_track_time_days ≠ 0
    ∧ prSearchWindow
        [⟨"c1", "alice", 0, "first", "first"⟩, ⟨"c2", "bob", 500, "second", "second"⟩]
        ⟨100, [], [], "tpl", "", [], "sub"⟩
      = (400, 500) := by
  refine ⟨by decide, by decide, ?_⟩
  have h := (c8_backtrack_clamp
    [⟨"c1", "alice", 0, "first", "first"⟩, ⟨"c2", "bob", 500, "second", "second"⟩]
    ⟨100, [], [], "tpl", "", [], "sub"⟩ (by decide) (by decide)).1
  rw [h]
  decide

/-- C9: the claim is right and the code has a slip — `repo.replace(/.git$/,
'')` leaves the dot unescaped, so for the URL
`https://github.com/acme/legit` (whose repo name carries no `.git` suffix)
`getRepoInfo` strips the four trailing characters `egit` and returns repo
`l` instead of `legit`. -/
theorem c9_unescaped_dot_strip :
    getRepoInfo "https://github.com/acme/legit"
      = .ok (some ⟨"https://github.com/", "acme", "l"⟩)
    ∧ ("l" : String) ≠ "legit" := by
  exact ⟨by decide, by decide⟩

/-- C10: when the base lookup of a configured path fails while the head
lookup succeeds with a parseable submodule entry, no failure is reported
(the report list is empty — the catch block only issues a warning,
independently of the fail-on-error switch) and the produced entry has
`baseRef` equal to `headRef`, both set to the head sha, so the nested run
covers an empty range. -/
theorem c10_missing_base_substitution (p hu hsha : String) (ri : RepoInfo)
    (h : getRepoInfo hu = .ok (some ri)) :
    getSubmodules [⟨p, .ok (.file (some hu) hsha), .error ()⟩]
      = .ok ([⟨p, hsha, hsha, ri.owner, ri.repo⟩], []) := by
  simp [getSubmodules, processPath, h]

/-- C10, witness at a concrete path whose base lookup is rejected. -/
theorem c10_missing_base_substitution_witness :
    getRepoInfo "https://github.com/acme/widgets"
      = .ok (some ⟨"https://github.com/", "acme", "widgets"⟩)
    ∧ getSubmodules
        [⟨"modules/widgets", .ok (.file (some "https://github.com/acme/widgets") "9999"),
          .error ()⟩]
      = .ok ([⟨"modules/widgets", "9999", "9999", "acme", "widgets"⟩], []) :=
  ⟨by decide,
    c10_missing_base_substitution "modules/widgets" "https://github.com/acme/widgets"
      "9999" ⟨"https://github.com/", "acme", "widgets"⟩ (by decide)⟩
